import Mathlib

/-!
# Host-call shims of `src/emasm/structure.cc` and colour words of `screeps/visual.h`

A shallow embedding of the native-to-host bridge code:

* the 32-bit integer operations used by the C++ initialisers of `color_t` and by the
  JavaScript bodies of the `EM_ASM` blocks (`&`, `|`, `<<`, `>>>`, `!==`);
* `color_t` and the drawing option records of `_visual_structs_t`;
* the direction unpacking loop shared by `spawn_t::spawn_creep` and
  `spawn_t::spawning_t::set_directions`;
* the host calls issued by `structure_t::init`, `spawn_t::body_t::body_t`,
  `spawn_t::spawn_creep`, `spawn_t::spawning_t::cancel` and
  `spawn_t::spawning_t::set_directions`, against a host given by its entry points.

Integers are `Int`/`Nat` with explicit reduction modulo `2 ^ 32`.  A `float` is the exact
rational value of the binary32 number stored.  Loops of the JavaScript
bodies carry a fuel argument and return `none` when it runs out; the theorems show how much
fuel is enough; a shim whose loop ran out of fuel has no result.
-/

namespace screeps

/-! ## 32-bit integer operations -/

/-- The unsigned 32-bit word of an integer (JavaScript `ToUint32`, C++ conversion to
`uint32_t`): the value modulo `2 ^ 32`. -/
def toUint32 (x : Int) : Nat := (x % 4294967296).toNat

/-- The signed 32-bit value of an integer (JavaScript `ToInt32`, two's complement `int`). -/
def toInt32 (x : Int) : Int :=
  if x % 4294967296 < 2147483648 then x % 4294967296 else x % 4294967296 - 4294967296

/-- Bitwise and of two 32-bit signed integers (`a & b` in C++ on `int`, and in JavaScript). -/
def bitAnd (a b : Int) : Int := toInt32 ((toUint32 a &&& toUint32 b : Nat) : Int)

/-- Bitwise or of two 32-bit signed integers (`a | b` on `int`). -/
def bitOr (a b : Int) : Int := toInt32 ((toUint32 a ||| toUint32 b : Nat) : Int)

/-- Left shift of a 32-bit signed integer (`a << n` on `int`), bits shifted past bit 31
dropped. -/
def shiftLeft (a : Int) (n : Nat) : Int := toInt32 ((toUint32 a <<< (n % 32) : Nat) : Int)

/-- JavaScript `a >>> n`: the unsigned 32-bit word of `a` shifted right, zero filled. -/
def shiftRightUnsigned (a : Int) (n : Nat) : Int := ((toUint32 a >>> (n % 32) : Nat) : Int)

/-! ## `screeps/visual.h` -/

/-- The member `rgba` of `color_t() : rgba(0) {}`. -/
def color_t_default : Nat := 0

/-- The member `rgba` of `color_t(int rgb) : rgba(0xff000000 | rgb & 0xffffff) {}`.
`&` binds tighter than `|`; `rgb & 0xffffff` is an `int`, converted to `unsigned` for the
`|` with the `unsigned` literal `0xff000000`. -/
def color_t_rgb (rgb : Int) : Nat :=
  (0xff000000 ||| toUint32 (bitAnd rgb 0xffffff)) % 4294967296

/-- The member `rgba` of
`color_t(int rgb, int opacity) : rgba((opacity & 0xff) << 24 | (rgb & 0xffffff)) {}`.
All operators act on `int`; the result is converted to `uint32_t`. -/
def color_t_rgb_opacity (rgb opacity : Int) : Nat :=
  toUint32 (bitOr (shiftLeft (bitAnd opacity 0xff) 24) (bitAnd rgb 0xffffff))

/-- The enumeration `enum struct line_style_t { solid, dashed, dotted };`. -/
inductive line_style_t
  | solid
  | dashed
  | dotted
  deriving DecidableEq, Repr

/-! ### Binary floating point

A `float` member is held as the exact rational value of the binary32 number stored in it.
The initialiser `0.15` is a `double` literal, the binary64 number nearest to the decimal,
which the member initialisation converts to binary32; both steps round to nearest, ties
to even.  Values are non-negative and below the overflow threshold. -/

/-- A non-negative binary floating-point number: `mantissa * 2 ^ exponent`. -/
structure Binary where
  mantissa : Nat
  exponent : Int
  deriving DecidableEq, Repr

/-- The integer nearest to `n / d`, ties to the even one. -/
def roundHalfEven (n d : Nat) : Nat :=
  if 2 * (n % d) < d then n / d
  else if d < 2 * (n % d) then n / d + 1
  else if n / d % 2 = 0 then n / d else n / d + 1

/-- Scaling of `n / d * 2 ^ e` by powers of two until the quotient has `p` bits, that is
`2 ^ (p - 1) ≤ n / d < 2 ^ p`, without taking the exponent below `elow` (the exponent of
the subnormal numbers). -/
def scaleToPrecision (p : Nat) (elow : Int) : Nat → Nat → Nat → Int → Nat × Nat × Int
  | 0, n, d, e => (n, d, e)
  | fuel + 1, n, d, e =>
    if n < 2 ^ (p - 1) * d ∧ elow < e then scaleToPrecision p elow fuel (2 * n) d (e - 1)
    else if 2 ^ p * d ≤ n then scaleToPrecision p elow fuel n (2 * d) (e + 1)
    else (n, d, e)

/-- The binary floating-point number with `p` bits of precision nearest to `n / d`, ties
to even. -/
def roundToBinary (p : Nat) (elow : Int) (n d : Nat) : Binary :=
  if n = 0 then Binary.mk 0 0
  else
    let s := scaleToPrecision p elow 2200 n d 0
    Binary.mk (roundHalfEven s.1 s.2.1) s.2.2

/-- The exact value of a binary floating-point number. -/
def Binary.toRat (b : Binary) : ℚ := (b.mantissa : ℚ) * (2 : ℚ) ^ b.exponent

/-- The numerator of the value written as a fraction with a power of two below. -/
def Binary.numerator (b : Binary) : Nat := b.mantissa * 2 ^ b.exponent.toNat

/-- The denominator of the value written as a fraction with a power of two below. -/
def Binary.denominator (b : Binary) : Nat := 2 ^ (-b.exponent).toNat

/-- The `double` denoted by the decimal literal `n / d`: binary64, 53 bits. -/
def doubleOfDecimal (n d : Nat) : Binary := roundToBinary 53 (-1074) n d

/-- The conversion of a `double` to `float`: binary32, 24 bits. -/
def floatOfDouble (b : Binary) : Binary := roundToBinary 24 (-149) b.numerator b.denominator

/-- The value stored by `float x = <decimal literal n / d>;`. -/
def floatOfDecimal (n d : Nat) : ℚ := (floatOfDouble (doubleOfDecimal n d)).toRat

/-- The value stored by `float x = <integer literal n>;`. -/
def floatOfInt (n : Nat) : ℚ := (roundToBinary 24 (-149) n 1).toRat

/-- The statement that `x` is the binary32 number for the documented decimal `q`: `x` is
`m / 2 ^ k` with a 24-bit significand `m`, so that one unit in the last place of `x` is
`1 / 2 ^ k`, and `x` is within half a unit in the last place of `q`. -/
def IsFloatOfDecimal (q x : ℚ) (m k : Nat) : Prop :=
  2 ^ 23 ≤ m ∧ m < 2 ^ 24 ∧ x = (m : ℚ) / 2 ^ k ∧ |x - q| ≤ 1 / 2 ^ (k + 1)

/-- The record `struct circle_t` with its default member initialisers.  A `float` member
holds the exact value of the binary32 number its initialiser converts to; a `color_t`
member is held by its `rgba`. -/
structure circle_t where
  radius : ℚ := floatOfDecimal 15 100
  fill : Nat := color_t_rgb 0xffffff
  opacity : ℚ := floatOfDecimal 5 10
  stroke : Nat := color_t_default
  stroke_width : ℚ := floatOfDecimal 1 10

/-- The record `struct line_t` with its default member initialisers. -/
structure line_t where
  width : ℚ := floatOfDecimal 1 10
  color : Nat := color_t_rgb 0xffffff
  opacity : ℚ := floatOfDecimal 5 10
  line_style : line_style_t := line_style_t.solid

/-- The record `struct poly_t` with its default member initialisers. -/
structure poly_t where
  fill : Nat := color_t_default
  opacity : ℚ := floatOfDecimal 5 10
  stroke : Nat := color_t_rgb 0xffffff
  stroke_width : ℚ := floatOfDecimal 1 10
  line_style : line_style_t := line_style_t.solid

/-- The record `struct text_t` with its default member initialisers. -/
structure text_t where
  color : Nat := color_t_rgb 0xffffff
  font : String := ""
  stroke : Nat := color_t_default
  stroke_width : ℚ := floatOfDecimal 15 100
  background_color : Nat := color_t_default
  background_padding : ℚ := floatOfDecimal 3 10
  align : String := "center"
  opacity : ℚ := floatOfInt 1

/-- The alpha byte of a colour word: bits 24..31. -/
def alphaByte (rgba : Nat) : Nat := rgba / 16777216 % 256

/-- The low 24 bits of a colour word. -/
def rgbBits (rgba : Nat) : Nat := rgba % 16777216

/-! ## The direction unpacking loop of `structure.cc` -/

/-- A JavaScript variable declared by `var x;`: `undefined` until it is assigned. -/
inductive JsVar (α : Type)
  | undefined
  | defined (value : α)
  deriving DecidableEq, Repr

/-- The loop
`do { var direction = $n & 0x0f; directions.push(direction); $n >>>= 4; } while ($n !== 0);`
of `spawn_creep` (on `$4`, pushing to `options.directions`) and of `set_directions`
(on `$1`, pushing to `directions`).  `bits` is the current value of the argument,
`directions` the array built so far. -/
def directions_loop : Nat → Int → List Int → Option (List Int)
  | 0, _, _ => none
  | fuel + 1, bits, directions =>
    let direction := bitAnd bits 0x0f
    let directions := directions ++ [direction]
    let bits := shiftRightUnsigned bits 4
    if bits ≠ 0 then directions_loop fuel bits directions else some directions

/-- The JavaScript object `{ directions: [...] }` built by `spawn_creep`. -/
structure creep_options where
  directions : List Int
  deriving DecidableEq, Repr

/-- The variable `options` of `spawn_creep` when the host method is called:
`var options; if ($4 !== 0) { options = { directions: [] }; do ... while ($4 !== 0); }`. -/
def spawn_creep_options (fuel : Nat) (bits : Int) : Option (JsVar creep_options) :=
  if bits ≠ 0 then
    (directions_loop fuel bits []).map (fun ds => JsVar.defined (creep_options.mk ds))
  else some JsVar.undefined

/-- The variable `directions` of `set_directions` when the host method is called:
`var directions; if ($1 !== 0) { directions = []; do ... while ($1 !== 0); }`. -/
def set_directions_arg (fuel : Nat) (bits : Int) : Option (JsVar (List Int)) :=
  if bits ≠ 0 then (directions_loop fuel bits []).map JsVar.defined
  else some JsVar.undefined

/-- The value the host sees for a 32-bit word passed as an `EM_ASM` argument: arguments
are read as signed 32-bit integers, so a word with its top bit set arrives negative. -/
def hostInt (word : Nat) : Int := toInt32 (word : Int)

/-- Modelled from the spec: the packing of a direction list into the 32-bit word of
`directions_t` (declared in `screeps/structure.h`, which is not among the sources): the
first element in the lowest nibble, each further element four bits higher, kept to
32 bits. -/
def packDirections : List Nat → Nat
  | [] => 0
  | d :: ds => (d + 16 * packDirections ds) % 4294967296

/-- The `k` lowest 4-bit groups of a word, lowest first. -/
def nibbles : Nat → Nat → List Nat
  | 0, _ => []
  | k + 1, w => w % 16 :: nibbles k (w / 16)

/-- The list the specification's data model describes for a packed word: its 4-bit
groups, lowest first, up to but not including the first group that is zero. -/
def groupsBeforeFirstZero (w : Nat) : List Int :=
  ((nibbles 8 w).takeWhile (fun d => d ≠ 0)).map (fun d : Nat => (d : Int))

/-- Repacking of an unpacked list: entry `i` placed in nibble `i`, that is the sum of
`entry_i * 16 ^ i` (written in Horner form). -/
def repack : List Int → Int
  | [] => 0
  | d :: ds => d + 16 * repack ds

/-! ## The host and the shims of `structure.cc` -/

/-- The host entry points named in the `EM_ASM` bodies of `structure.cc`, over a host
state `σ` and host values `Val` (live objects, strings, body parts).  The JavaScript that
implements them is not among the sources, so they are parameters.  Pointers and sizes are
offsets into linear memory and reach the host as the same numbers.  `readInt32` and
`readCreepBodyPart` only inspect memory and decode a code; the other entry points may
change the host state.  Entry points are taken to return normally. -/
structure Host (σ Val : Type) where
  /-- Entry `Module.screeps.object.<entry>({ name: offset, ... })` for the six layout entries. -/
  initLayout : String → List (String × Nat) → σ → σ
  /-- Entry `Module.readInt32(addr)`. -/
  readInt32 : Nat → σ → Int
  /-- Entry `Module.screeps.object.readCreepBodyPart(code)`. -/
  readCreepBodyPart : Int → Val
  /-- Entry `Module.screeps.util.handleCtor(value)`, returning the new handle. -/
  handleCtor : List Val → σ → Int × σ
  /-- Entry `Module.screeps.util.handleGet(handle)`. -/
  handleGet : Int → σ → Val × σ
  /-- Entry `Module.screeps.util.getObjectById(Module, idPtr)`. -/
  getObjectById : Nat → σ → Val × σ
  /-- Entry `Module.screeps.string.readOneByteStringData(Module, ptr, len)`. -/
  readOneByteStringData : Nat → Nat → σ → Val × σ
  /-- Method `spawn.spawnCreep(body, name, options)`, returning the status code. -/
  spawnCreep : Val → Val → Val → JsVar creep_options → σ → Int × σ
  /-- The property read `spawn.spawning`. -/
  spawning : Val → σ → Val × σ
  /-- Method `spawning.cancel()`, returning the status code. -/
  cancel : Val → σ → Int × σ
  /-- Method `spawning.setDirections(directions)`, returning the status code. -/
  setDirections : Val → JsVar (List Int) → σ → Int × σ

/-- The values of the `sizeof` and `offsetof` expressions that `structure_t::init` passes.
The records are declared in `screeps/structure.h`, which is not among the sources, so
the values are parameters. -/
structure Layout where
  sizeof_structure_union_t : Nat
  structure_t_type : Nat
  structure_t_hits : Nat
  structure_t_hits_max : Nat
  structure_t_owner : Nat
  structure_t_my : Nat
  container_t_store : Nat
  container_t_ticks_to_decay : Nat
  controller_t_level : Nat
  controller_t_progress : Nat
  controller_t_progress_total : Nat
  controller_t_ticks_to_downgrade : Nat
  controller_t_upgrade_blocked : Nat
  extension_t_energy : Nat
  extension_t_energy_capacity : Nat
  road_t_ticks_to_decay : Nat
  spawn_t_energy : Nat
  spawn_t_energy_capacity : Nat
  spawn_t_is_spawning : Nat
  spawn_t_spawning : Nat
  spawning_t_directions : Nat
  spawning_t_need_time : Nat
  spawning_t_remaining_time : Nat
  spawning_t_id : Nat

/-- The function `void structure_t::init()`: six `EM_ASM` blocks, each one call of a
layout entry with an object literal of named offsets. -/
def structure_t_init {σ Val : Type} (H : Host σ Val) (L : Layout) (s : σ) : σ :=
  -- Base class
  let s := H.initLayout "initStructureLayout"
    [("sizeof", L.sizeof_structure_union_t),
     ("structureType", L.structure_t_type),
     ("hits", L.structure_t_hits),
     ("hitsMax", L.structure_t_hits_max),
     ("owner", L.structure_t_owner),
     ("my", L.structure_t_my)] s
  -- Container
  let s := H.initLayout "initStructureContainerLayout"
    [("store", L.container_t_store),
     ("ticksToDecay", L.container_t_ticks_to_decay)] s
  -- Controller
  let s := H.initLayout "initStructureControllerLayout"
    [("level", L.controller_t_level),
     ("progress", L.controller_t_progress),
     ("progressTotal", L.controller_t_progress_total),
     ("ticksToDowngrade", L.controller_t_ticks_to_downgrade),
     ("upgradeBlocked", L.controller_t_upgrade_blocked)] s
  -- Extension
  let s := H.initLayout "initStructureExtensionLayout"
    [("energy", L.extension_t_energy),
     ("energyCapacity", L.extension_t_energy_capacity)] s
  -- Road
  let s := H.initLayout "initStructureRoadLayout"
    [("ticksToDecay", L.road_t_ticks_to_decay)] s
  -- Spawn
  H.initLayout "initStructureSpawnLayout"
    [("energy", L.spawn_t_energy),
     ("energyCapacity", L.spawn_t_energy_capacity),
     ("spawning", L.spawn_t_is_spawning),
     ("spawningDirections", L.spawn_t_spawning + L.spawning_t_directions),
     ("spawningNeedTime", L.spawn_t_spawning + L.spawning_t_need_time),
     ("spawningRemainingTime", L.spawn_t_spawning + L.spawning_t_remaining_time),
     ("spawningId", L.spawn_t_spawning + L.spawning_t_id)] s

/-- The value an `EM_ASM_INT` block hands back to C++: the number returned by the
JavaScript body as an `int`. -/
def em_asm_int (result : Int) : Int := toInt32 result

/-- Modelled from the spec: the handle-owning wrapper `internal::js_handle_t` (declared in
`javascript.h`, which is not among the sources): it stores the integer handle it is
constructed with, and `get_ref` gives that integer back. -/
structure js_handle_t where
  ref : Int
  deriving DecidableEq, Repr

/-- The loop
`for (var ii = 0; ii < $1; ++ii) { body.push(readCreepBodyPart(Module.readInt32($0 + ii * 4))); }`
of the `body_t` constructor; `data` is `$0`, `size` is `$1`. -/
def body_loop {σ Val : Type} (H : Host σ Val) (data size : Nat) (s : σ) :
    Nat → Nat → List Val → Option (List Val)
  | 0, _, _ => none
  | fuel + 1, ii, body =>
    if ii < size then
      body_loop H data size s fuel (ii + 1)
        (body ++ [H.readCreepBodyPart (H.readInt32 (data + ii * 4) s)])
    else some body

/-- The constructor `spawn_t::body_t::body_t(const std::vector<bodypart_t>& parts)`:
the `EM_ASM_INT` block is given `parts.data()` and `parts.size()`, and its result
initialises the `js_handle_t` base. -/
def body_t_ctor {σ Val : Type} (H : Host σ Val) (fuel : Nat) (parts_data parts_size : Nat)
    (s : σ) : Option (js_handle_t × σ) :=
  (body_loop H parts_data parts_size s fuel 0 []).map fun body =>
    let (handle, s) := H.handleCtor body s
    (js_handle_t.mk (em_asm_int handle), s)

/-- What the native caller of a shim receives: nothing from a `void` function, the
integer from an `int` function. -/
inductive Returned
  | nothing
  | int (value : Int)
  deriving DecidableEq, Repr

/-- The shim `int spawn_t::spawn_creep(const body_t& body, const std::string& name,
const options_t& options) const`.  `idPtr` is `&this->id`, `name_c_str` and
`name_length` are `name.c_str()` and `name.length()`, `bits` is
`options.directions.bits`.  The callee object is evaluated first, then the arguments left
to right, then the call. -/
def spawn_creep {σ Val : Type} (H : Host σ Val) (fuel : Nat) (idPtr : Nat)
    (body : js_handle_t) (name_c_str name_length : Nat) (bits : Nat) (s : σ) :
    Option (Returned × σ) :=
  (spawn_creep_options fuel (hostInt bits)).map fun options =>
    let (spawn, s) := H.getObjectById idPtr s
    let (bodyValue, s) := H.handleGet body.ref s
    let (nameValue, s) := H.readOneByteStringData name_c_str name_length s
    let (status, s) := H.spawnCreep spawn bodyValue nameValue options s
    (Returned.int (em_asm_int status), s)

/-- The shim `void spawn_t::spawning_t::cancel() const`.  `idPtr` is `&this->spawn().id`.  The
`EM_ASM` body is the single expression statement
`getObjectById(Module, $0).spawning.cancel();` and the function is `void`. -/
def spawning_t_cancel {σ Val : Type} (H : Host σ Val) (idPtr : Nat) (s : σ) : Returned × σ :=
  let (spawn, s) := H.getObjectById idPtr s
  let (spawningValue, s) := H.spawning spawn s
  let (_, s) := H.cancel spawningValue s
  (Returned.nothing, s)

/-- The shim `void spawn_t::spawning_t::set_directions(directions_t directions) const`.  `idPtr`
is `&this->spawn().id`, `bits` is `directions.bits`. -/
def spawning_t_set_directions {σ Val : Type} (H : Host σ Val) (fuel : Nat) (idPtr : Nat)
    (bits : Nat) (s : σ) : Option (Returned × σ) :=
  (set_directions_arg fuel (hostInt bits)).map fun directions =>
    let (spawn, s) := H.getObjectById idPtr s
    let (spawningValue, s) := H.spawning spawn s
    let (_, s) := H.setDirections spawningValue directions s
    (Returned.nothing, s)

/-! ## Observing the calls a shim makes -/

/-- One call of a state-changing host entry point, with its arguments. -/
inductive HostCall (Val : Type)
  | initLayout (entry : String) (fields : List (String × Nat))
  | handleCtor (value : List Val)
  | handleGet (handle : Int)
  | getObjectById (idPtr : Nat)
  | readOneByteStringData (ptr len : Nat)
  | spawnCreep (spawn body name : Val) (options : JsVar creep_options)
  | spawning (spawn : Val)
  | cancel (spawningValue : Val)
  | setDirections (spawningValue : Val) (directions : JsVar (List Int))

/-- The result of a host call paired with the record of calls extended by that call. -/
def logged {σ Val α : Type} (result : α × σ) (log : List (HostCall Val))
    (call : HostCall Val) : α × σ × List (HostCall Val) :=
  (result.1, result.2, log ++ [call])

/-- The host `H` with a record of the calls made: the state is paired with the list of
calls so far, oldest first, and every state-changing entry point appends its call. -/
def recording {σ Val : Type} (H : Host σ Val) : Host (σ × List (HostCall Val)) Val where
  initLayout entry fields s :=
    (H.initLayout entry fields s.1, s.2 ++ [HostCall.initLayout entry fields])
  readInt32 addr s := H.readInt32 addr s.1
  readCreepBodyPart := H.readCreepBodyPart
  handleCtor value s := logged (H.handleCtor value s.1) s.2 (HostCall.handleCtor value)
  handleGet handle s := logged (H.handleGet handle s.1) s.2 (HostCall.handleGet handle)
  getObjectById idPtr s :=
    logged (H.getObjectById idPtr s.1) s.2 (HostCall.getObjectById idPtr)
  readOneByteStringData ptr len s :=
    logged (H.readOneByteStringData ptr len s.1) s.2 (HostCall.readOneByteStringData ptr len)
  spawnCreep spawn body name options s :=
    logged (H.spawnCreep spawn body name options s.1) s.2
      (HostCall.spawnCreep spawn body name options)
  spawning spawn s := logged (H.spawning spawn s.1) s.2 (HostCall.spawning spawn)
  cancel spawningValue s :=
    logged (H.cancel spawningValue s.1) s.2 (HostCall.cancel spawningValue)
  setDirections spawningValue directions s :=
    logged (H.setDirections spawningValue directions s.1) s.2
      (HostCall.setDirections spawningValue directions)

/-- The entry name of a layout registration call. -/
def HostCall.entryName {Val : Type} : HostCall Val → Option String
  | HostCall.initLayout entry _ => some entry
  | _ => none

/-- The field names of a layout registration call, in the order written. -/
def HostCall.fieldNames {Val : Type} : HostCall Val → List String
  | HostCall.initLayout _ fields => fields.map Prod.fst
  | _ => []

/-- The offset registered under a field name by a layout registration call. -/
def HostCall.offsetOf {Val : Type} (name : String) : HostCall Val → Option Nat
  | HostCall.initLayout _ fields => (fields.find? (fun f => f.1 == name)).map Prod.snd
  | _ => none

/-- A host over a one-point state whose every status code is `code`, whose handles are
`7`, and whose memory reads give the address back: a concrete host to run the shims on. -/
def constHost (code : Int) : Host Unit Nat where
  initLayout _ _ s := s
  readInt32 addr _ := (addr : Int)
  readCreepBodyPart c := c.toNat
  handleCtor _ s := (7, s)
  handleGet _ s := (0, s)
  getObjectById idPtr s := (idPtr, s)
  readOneByteStringData ptr _ s := (ptr, s)
  spawnCreep _ _ _ _ s := (code, s)
  spawning spawn s := (spawn, s)
  cancel _ s := (code, s)
  setDirections _ _ s := (code, s)


/-! ## Lemmas on the 32-bit operations -/

theorem toUint32_lt (x : Int) : toUint32 x < 4294967296 := by
  unfold toUint32
  omega

theorem toUint32_natCast (n : Nat) : toUint32 (n : Int) = n % 4294967296 := by
  unfold toUint32
  omega

theorem toUint32_of_lt {n : Nat} (h : n < 4294967296) : toUint32 (n : Int) = n := by
  rw [toUint32_natCast]
  omega

theorem toUint32_toInt32 (x : Int) : toUint32 (toInt32 x) = toUint32 x := by
  unfold toUint32 toInt32
  split <;> omega

theorem toInt32_of_lt {n : Nat} (h : n < 2147483648) : toInt32 (n : Int) = (n : Int) := by
  unfold toInt32
  split <;> omega

theorem toInt32_of_range {r : Int} (hlo : -2147483648 ≤ r) (hhi : r < 2147483648) :
    toInt32 r = r := by
  unfold toInt32
  split <;> omega

theorem toUint32_hostInt {w : Nat} (h : w < 4294967296) : toUint32 (hostInt w) = w := by
  unfold hostInt
  rw [toUint32_toInt32, toUint32_of_lt h]

theorem hostInt_eq_zero_iff {w : Nat} (h : w < 4294967296) : hostInt w = 0 ↔ w = 0 := by
  unfold hostInt toInt32
  split <;> omega

theorem bitAnd_fifteen (x : Int) : bitAnd x 0x0f = ((toUint32 x % 16 : Nat) : Int) := by
  unfold bitAnd
  have h15 : toUint32 (0x0f : Int) = 2 ^ 4 - 1 := by decide
  rw [h15, Nat.and_pow_two_sub_one_eq_mod]
  apply toInt32_of_lt
  omega

theorem bitAnd_low8 (x : Int) : bitAnd x 0xff = ((toUint32 x % 256 : Nat) : Int) := by
  unfold bitAnd
  have h : toUint32 (0xff : Int) = 2 ^ 8 - 1 := by decide
  rw [h, Nat.and_pow_two_sub_one_eq_mod]
  apply toInt32_of_lt
  omega

theorem bitAnd_low24 (x : Int) :
    bitAnd x 0xffffff = ((toUint32 x % 16777216 : Nat) : Int) := by
  unfold bitAnd
  have h : toUint32 (0xffffff : Int) = 2 ^ 24 - 1 := by decide
  rw [h, Nat.and_pow_two_sub_one_eq_mod]
  apply toInt32_of_lt
  omega

theorem shiftRightUnsigned_four (x : Int) :
    shiftRightUnsigned x 4 = ((toUint32 x / 16 : Nat) : Int) := by
  unfold shiftRightUnsigned
  simp [Nat.shiftRight_eq_div_pow]

theorem high_or_low24 (a m : Nat) (hm : m < 16777216) :
    16777216 * a ||| m = 16777216 * a + m := by
  have h := @Nat.mul_add_lt_is_or 24 m (by simpa using hm) a
  simpa using h.symm

theorem color_t_rgb_eq (rgb : Int) :
    color_t_rgb rgb = 4278190080 + toUint32 rgb % 16777216 := by
  unfold color_t_rgb
  rw [bitAnd_low24, toUint32_of_lt (by omega)]
  have h := high_or_low24 255 (toUint32 rgb % 16777216) (by omega)
  norm_num at h
  rw [h]
  omega

theorem color_t_rgb_opacity_eq (rgb opacity : Int) :
    color_t_rgb_opacity rgb opacity
      = 16777216 * (toUint32 opacity % 256) + toUint32 rgb % 16777216 := by
  unfold color_t_rgb_opacity bitOr shiftLeft
  rw [bitAnd_low24, bitAnd_low8, toUint32_toInt32, toUint32_toInt32,
    @toUint32_of_lt (toUint32 opacity % 256) (by omega),
    @toUint32_of_lt (toUint32 rgb % 16777216) (by omega)]
  have hs : (toUint32 opacity % 256) <<< (24 % 32) = 16777216 * (toUint32 opacity % 256) := by
    rw [Nat.shiftLeft_eq]
    norm_num
    ring
  rw [hs, @toUint32_of_lt (16777216 * (toUint32 opacity % 256)) (by omega),
    high_or_low24 _ _ (by omega), toUint32_of_lt (by omega)]


/-! ## Lemmas on the direction unpacking loop -/

theorem directions_loop_step (f : Nat) (x : Int) (acc : List Int) :
    directions_loop (f + 1) x acc =
      if toUint32 x / 16 ≠ 0 then
        directions_loop f ((toUint32 x / 16 : Nat) : Int)
          (acc ++ [((toUint32 x % 16 : Nat) : Int)])
      else some (acc ++ [((toUint32 x % 16 : Nat) : Int)]) := by
  rw [directions_loop]
  simp only [bitAnd_fifteen, shiftRightUnsigned_four]
  by_cases h : toUint32 x / 16 = 0
  · simp [h]
  · have h2 : ((toUint32 x / 16 : Nat) : Int) ≠ 0 := by exact_mod_cast h
    rw [if_pos h2, if_pos h]

theorem directions_loop_nat (k : Nat) :
    ∀ (n fuel : Nat) (acc : List Int), n < 16 ^ (k + 1) → 16 ^ k ≤ n → n < 4294967296 →
      k + 1 ≤ fuel →
      directions_loop fuel (n : Int) acc
        = some (acc ++ (nibbles (k + 1) n).map (fun d : Nat => (d : Int))) := by
  induction k with
  | zero =>
    intro n fuel acc hlt _ h32 hfuel
    obtain ⟨f, rfl⟩ : ∃ f, fuel = f + 1 := ⟨fuel - 1, by omega⟩
    have hz : n / 16 = 0 := by omega
    rw [directions_loop_step, toUint32_of_lt h32]
    simp [hz, nibbles]
  | succ k ih =>
    intro n fuel acc hlt hge h32 hfuel
    obtain ⟨f, rfl⟩ : ∃ f, fuel = f + 1 := ⟨fuel - 1, by omega⟩
    have hlt2 : n / 16 < 16 ^ (k + 1) := by
      rw [Nat.div_lt_iff_lt_mul (by norm_num)]
      calc n < 16 ^ (k + 1 + 1) := hlt
        _ = 16 ^ (k + 1) * 16 := by ring
    have hge2 : 16 ^ k ≤ n / 16 := by
      rw [Nat.le_div_iff_mul_le (by norm_num)]
      calc 16 ^ k * 16 = 16 ^ (k + 1) := by ring
        _ ≤ n := hge
    have hpos : 0 < 16 ^ k := by positivity
    have hnz : n / 16 ≠ 0 := by omega
    have hstep := ih (n / 16) f (acc ++ [((n % 16 : Nat) : Int)]) hlt2 hge2 (by omega) (by omega)
    rw [directions_loop_step, toUint32_of_lt h32, if_pos hnz, hstep]
    simp [nibbles]

theorem directions_loop_toUint32 (fuel : Nat) (x : Int) (acc : List Int) :
    directions_loop fuel x acc = directions_loop fuel ((toUint32 x : Nat) : Int) acc := by
  cases fuel with
  | zero => rfl
  | succ f =>
    rw [directions_loop_step, directions_loop_step, toUint32_of_lt (toUint32_lt x)]

/-- The number of 4-bit groups of a non-zero 32-bit word up to its highest non-zero one. -/
theorem exists_nibble_count {w : Nat} (hw : w < 4294967296) (hne : w ≠ 0) :
    ∃ k, k < 8 ∧ 16 ^ k ≤ w ∧ w < 16 ^ (k + 1) := by
  refine ⟨Nat.log 16 w, ?_, Nat.pow_log_le_self 16 hne, Nat.lt_pow_succ_log_self (by norm_num) w⟩
  have h1 : 16 ^ Nat.log 16 w ≤ w := Nat.pow_log_le_self 16 hne
  have h2 : 16 ^ Nat.log 16 w < 16 ^ 8 := by
    calc 16 ^ Nat.log 16 w ≤ w := h1
      _ < 16 ^ 8 := by norm_num; exact hw
  exact (Nat.pow_lt_pow_iff_right (by norm_num)).1 h2

/-- What the loop builds from a non-zero 32-bit word, whatever fuel of at least 8. -/
theorem directions_loop_word {w fuel : Nat} (hw : w < 4294967296) (hne : w ≠ 0)
    (hfuel : 8 ≤ fuel) :
    ∃ k, k < 8 ∧ 16 ^ k ≤ w ∧ w < 16 ^ (k + 1) ∧
      directions_loop fuel (hostInt w) [] = some ((nibbles (k + 1) w).map (fun d : Nat => (d : Int))) := by
  obtain ⟨k, hk, hge, hlt⟩ := exists_nibble_count hw hne
  refine ⟨k, hk, hge, hlt, ?_⟩
  rw [directions_loop_toUint32, toUint32_hostInt hw,
    directions_loop_nat k w fuel [] hlt hge hw (by omega)]
  simp

theorem nibbles_eq_map_range (k : Nat) :
    ∀ w : Nat, nibbles k w = (List.range k).map (fun i => w / 16 ^ i % 16) := by
  induction k with
  | zero => intro w; rfl
  | succ k ih =>
    intro w
    rw [nibbles, ih, List.range_succ_eq_map, List.map_cons, List.map_map]
    congr 1
    · simp
    · apply List.map_congr_left
      intro i _
      simp only [Function.comp_apply, Nat.succ_eq_add_one]
      rw [Nat.div_div_eq_div_mul, pow_succ']

theorem nibbles_length (k w : Nat) : (nibbles k w).length = k := by
  rw [nibbles_eq_map_range]
  simp

theorem nibbles_lt (k : Nat) : ∀ (w d : Nat), d ∈ nibbles k w → d < 16 := by
  intro w d hd
  rw [nibbles_eq_map_range] at hd
  simp only [List.mem_map] at hd
  obtain ⟨i, _, rfl⟩ := hd
  omega

theorem nibbles_getLast (k : Nat) :
    ∀ w : Nat, (nibbles (k + 1) w).getLast? = some (w / 16 ^ k % 16) := by
  induction k with
  | zero => intro w; simp [nibbles]
  | succ k ih =>
    intro w
    have h := ih (w / 16)
    rw [nibbles] at h ⊢
    rw [nibbles, List.getLast?_cons_cons, h, Nat.div_div_eq_div_mul, pow_succ']

theorem repack_nibbles (k : Nat) :
    ∀ w : Nat, w < 16 ^ k → repack ((nibbles k w).map (fun d : Nat => (d : Int))) = (w : Int) := by
  induction k with
  | zero =>
    intro w hw
    have : w = 0 := by simpa using hw
    subst this
    rfl
  | succ k ih =>
    intro w hw
    have hlt : w / 16 < 16 ^ k := by
      rw [Nat.div_lt_iff_lt_mul (by norm_num)]
      calc w < 16 ^ (k + 1) := hw
        _ = 16 ^ k * 16 := by ring
    rw [nibbles, List.map_cons, repack, ih (w / 16) hlt]
    omega


/-! ## Lemmas on packed direction lists -/

theorem packDirections_lt :
    ∀ D : List Nat, D.length ≤ 8 → (∀ d ∈ D, d ≤ 15) → packDirections D < 16 ^ D.length := by
  intro D
  induction D with
  | nil => intro _ _; simp [packDirections]
  | cons d ds ih =>
    intro hlen hD
    have hd : d ≤ 15 := hD d (List.mem_cons_self d ds)
    have hlen2 : ds.length ≤ 7 := by simpa using hlen
    have h := ih (by omega) (fun x hx => hD x (List.mem_cons_of_mem d hx))
    have hpow : 16 ^ (d :: ds).length = 16 * 16 ^ ds.length := by
      rw [List.length_cons, pow_succ']
    rw [hpow, packDirections]
    omega

theorem packDirections_lt_word (D : List Nat) (hlen : D.length ≤ 8) (hD : ∀ d ∈ D, d ≤ 15) :
    packDirections D < 4294967296 :=
  calc packDirections D < 16 ^ D.length := packDirections_lt D hlen hD
    _ ≤ 16 ^ 8 := Nat.pow_le_pow_right (by norm_num) hlen
    _ = 4294967296 := by norm_num

theorem packDirections_cons {d : Nat} {ds : List Nat} (hlen : (d :: ds).length ≤ 8)
    (hD : ∀ x ∈ d :: ds, x ≤ 15) : packDirections (d :: ds) = d + 16 * packDirections ds := by
  have hlen2 : ds.length ≤ 7 := by simpa using hlen
  have h := packDirections_lt ds (by omega) (fun x hx => hD x (List.mem_cons_of_mem d hx))
  have hd : d ≤ 15 := hD d (List.mem_cons_self d ds)
  have hp : 16 ^ ds.length ≤ 16 ^ 7 := Nat.pow_le_pow_right (by norm_num) hlen2
  rw [packDirections]
  norm_num at hp
  omega

theorem packDirections_ne_zero {d : Nat} {ds : List Nat} (hlen : (d :: ds).length ≤ 8)
    (hD : ∀ x ∈ d :: ds, 1 ≤ x ∧ x ≤ 15) : packDirections (d :: ds) ≠ 0 := by
  rw [packDirections_cons hlen (fun x hx => (hD x hx).2)]
  have := (hD d (List.mem_cons_self d ds)).1
  omega

theorem directions_loop_pack :
    ∀ (D : List Nat) (fuel : Nat) (acc : List Int), D ≠ [] → D.length ≤ 8 →
      (∀ d ∈ D, 1 ≤ d ∧ d ≤ 15) → D.length ≤ fuel →
      directions_loop fuel ((packDirections D : Nat) : Int) acc
        = some (acc ++ D.map (fun d : Nat => (d : Int))) := by
  intro D
  induction D with
  | nil => intro _ _ h; exact absurd rfl h
  | cons d ds ih =>
    intro fuel acc _ hlen hD hfuel
    obtain ⟨f, rfl⟩ : ∃ f, fuel = f + 1 := ⟨fuel - 1, by simp at hfuel; omega⟩
    have hd := hD d (List.mem_cons_self d ds)
    have hcons := packDirections_cons hlen (fun x hx => (hD x hx).2)
    have h32 := packDirections_lt_word (d :: ds) hlen (fun x hx => (hD x hx).2)
    have hmod : packDirections (d :: ds) % 16 = d := by omega
    have hdiv : packDirections (d :: ds) / 16 = packDirections ds := by omega
    rw [directions_loop_step, toUint32_of_lt h32, hmod, hdiv]
    cases ds with
    | nil => simp [packDirections]
    | cons e es =>
      have hlen2 : (e :: es).length ≤ 8 := by
        simp only [List.length_cons] at hlen ⊢
        omega
      have hD2 : ∀ x ∈ e :: es, 1 ≤ x ∧ x ≤ 15 := fun x hx => hD x (List.mem_cons_of_mem d hx)
      rw [if_pos (packDirections_ne_zero hlen2 hD2),
        ih f (acc ++ [(d : Int)]) (by simp) hlen2 hD2 (by simp at hfuel ⊢; omega)]
      simp

theorem hostInt_packDirections_ne_zero {d : Nat} {ds : List Nat} (hlen : (d :: ds).length ≤ 8)
    (hD : ∀ x ∈ d :: ds, 1 ≤ x ∧ x ≤ 8) : hostInt (packDirections (d :: ds)) ≠ 0 := by
  have hD2 : ∀ x ∈ d :: ds, 1 ≤ x ∧ x ≤ 15 := fun x hx => ⟨(hD x hx).1, by have := (hD x hx).2; omega⟩
  have h32 := packDirections_lt_word (d :: ds) hlen (fun x hx => (hD2 x hx).2)
  rw [Ne, hostInt_eq_zero_iff h32]
  exact packDirections_ne_zero hlen hD2

theorem directions_loop_hostInt_pack {D : List Nat} {fuel : Nat} (hne : D ≠ [])
    (hlen : D.length ≤ 8) (hD : ∀ d ∈ D, 1 ≤ d ∧ d ≤ 8) (hfuel : 8 ≤ fuel) :
    directions_loop fuel (hostInt (packDirections D)) []
      = some (D.map (fun d : Nat => (d : Int))) := by
  have hD2 : ∀ x ∈ D, 1 ≤ x ∧ x ≤ 15 := fun x hx => ⟨(hD x hx).1, by have := (hD x hx).2; omega⟩
  have h32 := packDirections_lt_word D hlen (fun x hx => (hD2 x hx).2)
  rw [directions_loop_toUint32, toUint32_hostInt h32,
    directions_loop_pack D fuel [] hne hlen hD2 (by omega)]
  simp

/-! ## The claims on the packed direction list -/

/-- C1: Direction-list round trip.  For every list `D` of at most 8 direction codes, each
in 1..8, packed with the first element in the lowest nibble, the unpacking loop of
`spawn_creep` and of `set_directions`, run on the signed value the host receives, ends
(with any fuel of at least 8) and gives exactly `D` when `D` is non-empty (also when the
word has its top bit set and the host receives a negative integer), and leaves the
variable undefined when `D` is empty, whose word is 0. -/
theorem direction_list_round_trip (D : List Nat) (fuel : Nat) (hlen : D.length ≤ 8)
    (hD : ∀ d ∈ D, 1 ≤ d ∧ d ≤ 8) (hfuel : 8 ≤ fuel) :
    (D = [] → packDirections D = 0) ∧
    (2147483648 ≤ packDirections D → hostInt (packDirections D) < 0) ∧
    spawn_creep_options fuel (hostInt (packDirections D))
      = some (if D = [] then JsVar.undefined
              else JsVar.defined (creep_options.mk (D.map (fun d : Nat => (d : Int))))) ∧
    set_directions_arg fuel (hostInt (packDirections D))
      = some (if D = [] then JsVar.undefined
              else JsVar.defined (D.map (fun d : Nat => (d : Int)))) := by
  have h32 := packDirections_lt_word D hlen (fun x hx => by have := (hD x hx).2; omega)
  have hneg : 2147483648 ≤ packDirections D → hostInt (packDirections D) < 0 := by
    intro htop
    unfold hostInt toInt32
    split <;> omega
  cases D with
  | nil =>
    refine ⟨fun _ => rfl, hneg, ?_, ?_⟩
    · simp [spawn_creep_options, packDirections, hostInt, toInt32]
    · simp [set_directions_arg, packDirections, hostInt, toInt32]
  | cons d ds =>
    have hnz := hostInt_packDirections_ne_zero hlen hD
    have hloop := directions_loop_hostInt_pack (List.cons_ne_nil d ds) hlen hD hfuel
    refine ⟨fun h => absurd h (List.cons_ne_nil d ds), hneg, ?_, ?_⟩
    · rw [spawn_creep_options, if_pos hnz, hloop]
      simp
    · rw [set_directions_arg, if_pos hnz, hloop]
      simp

/-- C1 at `[1, 3, 5]`, which packs to `0x00000531`, and at `[1, 2, 3, 4, 5, 6, 7, 8]`,
whose word `0x87654321` has its top bit set, both with fuel 8. -/
theorem direction_list_round_trip_witness :
    packDirections [1, 3, 5] = 0x00000531 ∧
    spawn_creep_options 8 (hostInt 0x00000531)
      = some (JsVar.defined (creep_options.mk [1, 3, 5])) ∧
    packDirections [1, 2, 3, 4, 5, 6, 7, 8] = 0x87654321 ∧
    hostInt 0x87654321 = -2023406815 ∧
    set_directions_arg 8 (hostInt 0x87654321)
      = some (JsVar.defined [1, 2, 3, 4, 5, 6, 7, 8]) ∧
    (([1, 2, 3, 4, 5, 6, 7, 8] : List Nat) = [] → packDirections [1, 2, 3, 4, 5, 6, 7, 8] = 0) ∧
    (2147483648 ≤ packDirections [1, 2, 3, 4, 5, 6, 7, 8]
      → hostInt (packDirections [1, 2, 3, 4, 5, 6, 7, 8]) < 0) ∧
    spawn_creep_options 8 (hostInt (packDirections [1, 2, 3, 4, 5, 6, 7, 8]))
      = some (if ([1, 2, 3, 4, 5, 6, 7, 8] : List Nat) = [] then JsVar.undefined
              else JsVar.defined (creep_options.mk
                (([1, 2, 3, 4, 5, 6, 7, 8] : List Nat).map (fun d : Nat => (d : Int))))) ∧
    set_directions_arg 8 (hostInt (packDirections [1, 2, 3, 4, 5, 6, 7, 8]))
      = some (if ([1, 2, 3, 4, 5, 6, 7, 8] : List Nat) = [] then JsVar.undefined
              else JsVar.defined
                (([1, 2, 3, 4, 5, 6, 7, 8] : List Nat).map (fun d : Nat => (d : Int)))) :=
  ⟨by decide, by decide, by decide, by decide, by decide,
    direction_list_round_trip [1, 2, 3, 4, 5, 6, 7, 8] 8 (by decide) (by decide) (by decide)⟩

theorem nibbles_append (a : Nat) :
    ∀ (b w : Nat), nibbles (a + b) w = nibbles a w ++ nibbles b (w / 16 ^ a) := by
  induction a with
  | zero => intro b w; simp [nibbles]
  | succ a ih =>
    intro b w
    rw [show a + 1 + b = (a + b) + 1 by omega, nibbles, ih, nibbles, Nat.div_div_eq_div_mul,
      pow_succ']
    rfl

theorem takeWhile_nibbles_zero (j : Nat) :
    (nibbles j 0).takeWhile (fun d => d ≠ 0) = [] := by
  cases j with
  | zero => rfl
  | succ j => simp [nibbles]

theorem groupsBeforeFirstZero_of_no_gap {w k : Nat} (hk : k ≤ 8) (hlt : w < 16 ^ k)
    (hnz : ∀ d ∈ nibbles k w, d ≠ 0) :
    groupsBeforeFirstZero w = (nibbles k w).map (fun d : Nat => (d : Int)) := by
  unfold groupsBeforeFirstZero
  have h8 : 8 = k + (8 - k) := by omega
  rw [h8, nibbles_append, Nat.div_eq_of_lt hlt,
    List.takeWhile_append_of_pos (by simpa using hnz), takeWhile_nibbles_zero]
  simp

/-- C4 fails as stated: the word `0x00000501` has the groups 1, 0, 5; the groups before
the first zero group are `[1]`, but the loop of `spawn_creep` and of `set_directions`
builds `[1, 0, 5]`, running on until the remaining word is zero. -/
theorem unpack_stops_at_first_zero_counterexample :
    groupsBeforeFirstZero 0x00000501 = [1] ∧
    spawn_creep_options 8 (hostInt 0x00000501)
      = some (JsVar.defined (creep_options.mk [1, 0, 5])) ∧
    set_directions_arg 8 (hostInt 0x00000501) = some (JsVar.defined [1, 0, 5]) ∧
    spawn_creep_options 8 (hostInt 0x00000501)
      ≠ some (JsVar.defined (creep_options.mk (groupsBeforeFirstZero 0x00000501))) ∧
    set_directions_arg 8 (hostInt 0x00000501)
      ≠ some (JsVar.defined (groupsBeforeFirstZero 0x00000501)) := by
  decide

/-- C4 as amended: for every 32-bit word `w` the loop of `spawn_creep` and of
`set_directions` ends with any fuel of at least 8.  For `w = 0` no list is built (the
variable stays undefined).  For `w ≠ 0` the list is the sequence of the 4-bit groups of
`w`, lowest first, up to and including the highest non-zero group (`k` groups, where
`16 ^ (k - 1) ≤ w < 16 ^ k`), zero groups below it included; it is the list of the groups
before the first zero group whenever none of these `k` groups is zero. -/
theorem unpack_up_to_highest_group (w fuel : Nat) (hw : w < 4294967296) (hfuel : 8 ≤ fuel) :
    (w = 0 → spawn_creep_options fuel (hostInt w) = some JsVar.undefined ∧
      set_directions_arg fuel (hostInt w) = some JsVar.undefined) ∧
    (w ≠ 0 → ∃ k, 1 ≤ k ∧ k ≤ 8 ∧ 16 ^ (k - 1) ≤ w ∧ w < 16 ^ k ∧
      spawn_creep_options fuel (hostInt w)
        = some (JsVar.defined (creep_options.mk
            ((List.range k).map (fun i => ((w / 16 ^ i % 16 : Nat) : Int))))) ∧
      set_directions_arg fuel (hostInt w)
        = some (JsVar.defined ((List.range k).map (fun i => ((w / 16 ^ i % 16 : Nat) : Int)))) ∧
      ((∀ i < k, w / 16 ^ i % 16 ≠ 0) →
        groupsBeforeFirstZero w
          = (List.range k).map (fun i => ((w / 16 ^ i % 16 : Nat) : Int)))) := by
  constructor
  · intro h0
    subst h0
    constructor
    · simp [spawn_creep_options, hostInt, toInt32]
    · simp [set_directions_arg, hostInt, toInt32]
  · intro hne
    obtain ⟨k, hk, hge, hlt, hloop⟩ := directions_loop_word hw hne hfuel
    have hnz : hostInt w ≠ 0 := by
      rw [Ne, hostInt_eq_zero_iff hw]
      exact hne
    have hlist : (nibbles (k + 1) w).map (fun d : Nat => (d : Int))
        = (List.range (k + 1)).map (fun i => ((w / 16 ^ i % 16 : Nat) : Int)) := by
      rw [nibbles_eq_map_range, List.map_map]
      rfl
    refine ⟨k + 1, by omega, by omega, by simpa using hge, hlt, ?_, ?_, ?_⟩
    · rw [spawn_creep_options, if_pos hnz, hloop, hlist]
      rfl
    · rw [set_directions_arg, if_pos hnz, hloop, hlist]
      rfl
    · intro hall
      rw [← hlist]
      apply groupsBeforeFirstZero_of_no_gap (by omega) hlt
      intro d hd
      rw [nibbles_eq_map_range] at hd
      simp only [List.mem_map, List.mem_range] at hd
      obtain ⟨i, hi, rfl⟩ := hd
      exact hall i hi

/-- C4 as amended, at the word `0x00000501` with fuel 8. -/
theorem unpack_up_to_highest_group_witness :
    spawn_creep_options 8 (hostInt 0x00000501)
      = some (JsVar.defined (creep_options.mk [1, 0, 5])) ∧
    ((0x00000501 = 0 → spawn_creep_options 8 (hostInt 0x00000501) = some JsVar.undefined ∧
      set_directions_arg 8 (hostInt 0x00000501) = some JsVar.undefined) ∧
    (0x00000501 ≠ 0 → ∃ k, 1 ≤ k ∧ k ≤ 8 ∧ 16 ^ (k - 1) ≤ 0x00000501 ∧ 0x00000501 < 16 ^ k ∧
      spawn_creep_options 8 (hostInt 0x00000501)
        = some (JsVar.defined (creep_options.mk
            ((List.range k).map (fun i => ((0x00000501 / 16 ^ i % 16 : Nat) : Int))))) ∧
      set_directions_arg 8 (hostInt 0x00000501)
        = some (JsVar.defined
            ((List.range k).map (fun i => ((0x00000501 / 16 ^ i % 16 : Nat) : Int)))) ∧
      ((∀ i < k, 0x00000501 / 16 ^ i % 16 ≠ 0) →
        groupsBeforeFirstZero 0x00000501
          = (List.range k).map (fun i => ((0x00000501 / 16 ^ i % 16 : Nat) : Int))))) :=
  ⟨by decide, unpack_up_to_highest_group 0x00000501 8 (by decide) (by decide)⟩

/-- C10: the unpacking loop loses no information.  For every non-zero 32-bit word `w`,
passed to the host as a signed integer, the loop of `spawn_creep` and of `set_directions`
ends (with any fuel of at least 8) with a list of between 1 and 8 entries, each in 0..15,
the last one non-zero, whose repacking gives back `w`; and a second non-zero word `v` that
unpacks to the same list is the same word. -/
theorem unpack_loses_no_information (w v fuel : Nat) (hw : w < 4294967296) (hne : w ≠ 0)
    (hv : v < 4294967296) (hvne : v ≠ 0) (hfuel : 8 ≤ fuel) :
    (∃ l : List Int,
      spawn_creep_options fuel (hostInt w) = some (JsVar.defined (creep_options.mk l)) ∧
      set_directions_arg fuel (hostInt w) = some (JsVar.defined l) ∧
      1 ≤ l.length ∧ l.length ≤ 8 ∧ (∀ d ∈ l, 0 ≤ d ∧ d ≤ 15) ∧ l.getLast? ≠ some 0 ∧
      repack l = (w : Int)) ∧
    (spawn_creep_options fuel (hostInt w) = spawn_creep_options fuel (hostInt v) → w = v) ∧
    (set_directions_arg fuel (hostInt w) = set_directions_arg fuel (hostInt v) → w = v) := by
  obtain ⟨k, hk, hge, hlt, hloop⟩ := directions_loop_word hw hne hfuel
  obtain ⟨j, hj, hgev, hltv, hloopv⟩ := directions_loop_word hv hvne hfuel
  have hnz : hostInt w ≠ 0 := by
    rw [Ne, hostInt_eq_zero_iff hw]
    exact hne
  have hnzv : hostInt v ≠ 0 := by
    rw [Ne, hostInt_eq_zero_iff hv]
    exact hvne
  have hinj : (nibbles (k + 1) w).map (fun d : Nat => (d : Int))
      = (nibbles (j + 1) v).map (fun d : Nat => (d : Int)) → w = v := by
    intro h
    have h1 := repack_nibbles (k + 1) w hlt
    have h2 := repack_nibbles (j + 1) v hltv
    rw [h] at h1
    have : (w : Int) = (v : Int) := by rw [← h1, ← h2]
    exact_mod_cast this
  refine ⟨⟨(nibbles (k + 1) w).map (fun d : Nat => (d : Int)), ?_, ?_, ?_, ?_, ?_, ?_, ?_⟩,
    ?_, ?_⟩
  · rw [spawn_creep_options, if_pos hnz, hloop]
    rfl
  · rw [set_directions_arg, if_pos hnz, hloop]
    rfl
  · simp [nibbles_length]
  · simp only [List.length_map, nibbles_length]
    omega
  · intro d hd
    simp only [List.mem_map] at hd
    obtain ⟨n, hn, rfl⟩ := hd
    have := nibbles_lt (k + 1) w n hn
    omega
  · rw [List.getLast?_map, nibbles_getLast]
    have hq : w / 16 ^ k < 16 := by
      rw [Nat.div_lt_iff_lt_mul (by positivity)]
      calc w < 16 ^ (k + 1) := hlt
        _ = 16 * 16 ^ k := by ring
    have hq1 : 1 ≤ w / 16 ^ k := by
      rw [Nat.le_div_iff_mul_le (by positivity)]
      simpa using hge
    simp only [Option.map_some', ne_eq, Option.some.injEq]
    omega
  · exact repack_nibbles (k + 1) w hlt
  · intro h
    rw [spawn_creep_options, spawn_creep_options, if_pos hnz, if_pos hnzv, hloop, hloopv] at h
    simp only [Option.map_some', Option.some.injEq, JsVar.defined.injEq,
      creep_options.mk.injEq] at h
    exact hinj h
  · intro h
    rw [set_directions_arg, set_directions_arg, if_pos hnz, if_pos hnzv, hloop, hloopv] at h
    simp only [Option.map_some', Option.some.injEq, JsVar.defined.injEq] at h
    exact hinj h


/-- C10 at the words `0x87654321` (top bit set, negative on the host) and `0x00000531`,
with fuel 8. -/
theorem unpack_loses_no_information_witness :
    hostInt 0x87654321 < 0 ∧
    set_directions_arg 8 (hostInt 0x87654321) = some (JsVar.defined [1, 2, 3, 4, 5, 6, 7, 8]) ∧
    repack [1, 2, 3, 4, 5, 6, 7, 8] = 0x87654321 ∧
    ((∃ l : List Int,
      spawn_creep_options 8 (hostInt 0x87654321) = some (JsVar.defined (creep_options.mk l)) ∧
      set_directions_arg 8 (hostInt 0x87654321) = some (JsVar.defined l) ∧
      1 ≤ l.length ∧ l.length ≤ 8 ∧ (∀ d ∈ l, 0 ≤ d ∧ d ≤ 15) ∧ l.getLast? ≠ some 0 ∧
      repack l = ((0x87654321 : Nat) : Int)) ∧
    (spawn_creep_options 8 (hostInt 0x87654321) = spawn_creep_options 8 (hostInt 0x00000531)
      → 0x87654321 = 0x00000531) ∧
    (set_directions_arg 8 (hostInt 0x87654321) = set_directions_arg 8 (hostInt 0x00000531)
      → 0x87654321 = 0x00000531)) :=
  ⟨by decide, by decide, by decide,
    unpack_loses_no_information 0x87654321 0x00000531 8 (by decide) (by decide) (by decide)
      (by decide) (by decide)⟩

/-! ## The claims on `color_t` and the drawing option records -/

/-- C2: for every `int rgb`, `color_t(rgb)` is a 32-bit word whose high byte (alpha) is
`0xff` and whose low 24 bits are the low 24 bits of `rgb`; `color_t(0x000000)` is
`0xff000000`, fully opaque black. -/
theorem color_t_rgb_alpha_full (rgb : Int) :
    color_t_rgb rgb < 4294967296 ∧
    alphaByte (color_t_rgb rgb) = 0xff ∧
    rgbBits (color_t_rgb rgb) = rgbBits (toUint32 rgb) ∧
    rgbBits (color_t_rgb rgb) = (rgb % 16777216).toNat ∧
    color_t_rgb 0x000000 = 0xff000000 := by
  have h := color_t_rgb_eq rgb
  have hu : toUint32 rgb % 16777216 = (rgb % 16777216).toNat := by
    unfold toUint32
    omega
  refine ⟨?_, ?_, ?_, ?_, by decide⟩
  · omega
  · unfold alphaByte
    omega
  · unfold rgbBits
    omega
  · unfold rgbBits
    omega

/-- C3: for every `rgb` in `0..0xffffff` and every `opacity` in `0..255`,
`color_t(rgb, opacity)` is the 32-bit word `opacity * 2 ^ 24 + rgb` (also when
`opacity ≥ 128`, where the shifted `int` wraps), so its high byte is `opacity` and its
low 24 bits are `rgb`; with `opacity = 0` the word is `rgb`. -/
theorem color_t_rgb_opacity_packs (rgb opacity : Nat) (hrgb : rgb ≤ 0xffffff)
    (hop : opacity ≤ 255) :
    color_t_rgb_opacity (rgb : Int) (opacity : Int) = (opacity * 2 ^ 24 + rgb) % 2 ^ 32 ∧
    color_t_rgb_opacity (rgb : Int) (opacity : Int) = opacity * 2 ^ 24 + rgb ∧
    alphaByte (color_t_rgb_opacity (rgb : Int) (opacity : Int)) = opacity ∧
    rgbBits (color_t_rgb_opacity (rgb : Int) (opacity : Int)) = rgb ∧
    (opacity = 0 → color_t_rgb_opacity (rgb : Int) (opacity : Int) = rgb) := by
  have h := color_t_rgb_opacity_eq (rgb : Int) (opacity : Int)
  rw [@toUint32_of_lt rgb (by omega), @toUint32_of_lt opacity (by omega)] at h
  norm_num at hrgb ⊢
  refine ⟨?_, ?_, ?_, ?_, ?_⟩
  · omega
  · omega
  · unfold alphaByte
    omega
  · unfold rgbBits
    omega
  · intro h0
    omega

/-- C3 at `rgb = 0x123456`, `opacity = 200` (at least 128, so the shifted `int` wraps). -/
theorem color_t_rgb_opacity_packs_witness :
    color_t_rgb_opacity ((0x123456 : Nat) : Int) ((200 : Nat) : Int)
        = (200 * 2 ^ 24 + 0x123456) % 2 ^ 32 ∧
    color_t_rgb_opacity ((0x123456 : Nat) : Int) ((200 : Nat) : Int) = 200 * 2 ^ 24 + 0x123456 ∧
    alphaByte (color_t_rgb_opacity ((0x123456 : Nat) : Int) ((200 : Nat) : Int)) = 200 ∧
    rgbBits (color_t_rgb_opacity ((0x123456 : Nat) : Int) ((200 : Nat) : Int)) = 0x123456 ∧
    (200 = 0 → color_t_rgb_opacity ((0x123456 : Nat) : Int) ((200 : Nat) : Int) = 0x123456) :=
  color_t_rgb_opacity_packs 0x123456 200 (by decide) (by decide)

theorem floatOfDecimal_15_100 : floatOfDecimal 15 100 = 5033165 / 33554432 := by
  have h : floatOfDouble (doubleOfDecimal 15 100) = Binary.mk 10066330 (-26) := by decide
  rw [floatOfDecimal, h, Binary.toRat]
  norm_num

theorem floatOfDecimal_1_10 : floatOfDecimal 1 10 = 13421773 / 134217728 := by
  have h : floatOfDouble (doubleOfDecimal 1 10) = Binary.mk 13421773 (-27) := by decide
  rw [floatOfDecimal, h, Binary.toRat]
  norm_num

theorem floatOfDecimal_3_10 : floatOfDecimal 3 10 = 5033165 / 16777216 := by
  have h : floatOfDouble (doubleOfDecimal 3 10) = Binary.mk 10066330 (-25) := by decide
  rw [floatOfDecimal, h, Binary.toRat]
  norm_num

theorem floatOfDecimal_5_10 : floatOfDecimal 5 10 = 1 / 2 := by
  have h : floatOfDouble (doubleOfDecimal 5 10) = Binary.mk 8388608 (-24) := by decide
  rw [floatOfDecimal, h, Binary.toRat]
  norm_num

theorem floatOfInt_1 : floatOfInt 1 = 1 := by
  have h : roundToBinary 24 (-149) 1 1 = Binary.mk 8388608 (-23) := by decide
  rw [floatOfInt, h, Binary.toRat]
  norm_num

theorem isFloatOfDecimal_15_100 :
    IsFloatOfDecimal 0.15 (floatOfDecimal 15 100) 10066330 26 := by
  rw [floatOfDecimal_15_100]
  refine ⟨by norm_num, by norm_num, by norm_num, ?_⟩
  rw [abs_le]
  constructor <;> norm_num

theorem isFloatOfDecimal_1_10 :
    IsFloatOfDecimal 0.1 (floatOfDecimal 1 10) 13421773 27 := by
  rw [floatOfDecimal_1_10]
  refine ⟨by norm_num, by norm_num, by norm_num, ?_⟩
  rw [abs_le]
  constructor <;> norm_num

theorem isFloatOfDecimal_3_10 :
    IsFloatOfDecimal 0.3 (floatOfDecimal 3 10) 10066330 25 := by
  rw [floatOfDecimal_3_10]
  refine ⟨by norm_num, by norm_num, by norm_num, ?_⟩
  rw [abs_le]
  constructor <;> norm_num

/-- C8: the default-constructed drawing option records carry the documented defaults.
A `float` member holds the binary32 number of its documented decimal: exactly the decimal
for 0.5 and 1, and for 0.15, 0.1 and 0.3 the nearest binary32 number (`5033165 / 2 ^ 25`,
`13421773 / 2 ^ 27`, `5033165 / 2 ^ 24`), within half a unit in the last place.
`circle_t`: radius 0.15, fill opaque white, opacity 0.5, stroke transparent, stroke_width
0.1.  `line_t`: width 0.1, color opaque white, opacity 0.5, line_style solid.  `poly_t`:
fill transparent, opacity 0.5, stroke opaque white, stroke_width 0.1, line_style solid.
`text_t`: color opaque white, font "", stroke transparent, stroke_width 0.15, background
transparent, background_padding 0.3, align "center", opacity 1. -/
theorem drawing_option_defaults :
    (IsFloatOfDecimal 0.15 ({} : circle_t).radius 10066330 26 ∧
      ({} : circle_t).radius = 5033165 / 33554432 ∧
      ({} : circle_t).fill = 0xffffffff ∧
      ({} : circle_t).opacity = 0.5 ∧ alphaByte ({} : circle_t).stroke = 0 ∧
      IsFloatOfDecimal 0.1 ({} : circle_t).stroke_width 13421773 27 ∧
      ({} : circle_t).stroke_width = 13421773 / 134217728) ∧
    (IsFloatOfDecimal 0.1 ({} : line_t).width 13421773 27 ∧
      ({} : line_t).width = 13421773 / 134217728 ∧
      ({} : line_t).color = 0xffffffff ∧
      ({} : line_t).opacity = 0.5 ∧ ({} : line_t).line_style = line_style_t.solid) ∧
    (alphaByte ({} : poly_t).fill = 0 ∧ ({} : poly_t).opacity = 0.5 ∧
      ({} : poly_t).stroke = 0xffffffff ∧
      IsFloatOfDecimal 0.1 ({} : poly_t).stroke_width 13421773 27 ∧
      ({} : poly_t).stroke_width = 13421773 / 134217728 ∧
      ({} : poly_t).line_style = line_style_t.solid) ∧
    (({} : text_t).color = 0xffffffff ∧ ({} : text_t).font = "" ∧
      alphaByte ({} : text_t).stroke = 0 ∧
      IsFloatOfDecimal 0.15 ({} : text_t).stroke_width 10066330 26 ∧
      ({} : text_t).stroke_width = 5033165 / 33554432 ∧
      alphaByte ({} : text_t).background_color = 0 ∧
      IsFloatOfDecimal 0.3 ({} : text_t).background_padding 10066330 25 ∧
      ({} : text_t).background_padding = 5033165 / 16777216 ∧
      ({} : text_t).align = "center" ∧
      ({} : text_t).opacity = 1) := by
  have h05 : floatOfDecimal 5 10 = 0.5 := by
    rw [floatOfDecimal_5_10]
    norm_num
  exact ⟨⟨isFloatOfDecimal_15_100, floatOfDecimal_15_100, by decide, h05, by decide,
      isFloatOfDecimal_1_10, floatOfDecimal_1_10⟩,
    ⟨isFloatOfDecimal_1_10, floatOfDecimal_1_10, by decide, h05, rfl⟩,
    ⟨by decide, h05, by decide, isFloatOfDecimal_1_10, floatOfDecimal_1_10, rfl⟩,
    ⟨by decide, rfl, by decide, isFloatOfDecimal_15_100, floatOfDecimal_15_100, by decide,
      isFloatOfDecimal_3_10, floatOfDecimal_3_10, rfl, floatOfInt_1⟩⟩

/-! ## The claims on the shims -/

theorem spawn_creep_options_total {bits fuel : Nat} (hbits : bits < 4294967296)
    (hfuel : 8 ≤ fuel) :
    ∃ options, spawn_creep_options fuel (hostInt bits) = some options ∧
      (bits = 0 → options = JsVar.undefined) ∧
      (bits ≠ 0 → ∃ ds, directions_loop fuel (hostInt bits) [] = some ds ∧
        options = JsVar.defined (creep_options.mk ds)) := by
  by_cases h0 : bits = 0
  · subst h0
    exact ⟨JsVar.undefined, by simp [spawn_creep_options, hostInt, toInt32], fun _ => rfl,
      fun h => absurd rfl h⟩
  · obtain ⟨k, _, _, _, hloop⟩ := directions_loop_word hbits h0 hfuel
    have hnz : hostInt bits ≠ 0 := by
      rw [Ne, hostInt_eq_zero_iff hbits]
      exact h0
    refine ⟨JsVar.defined (creep_options.mk ((nibbles (k + 1) bits).map (fun d : Nat => (d : Int)))),
      ?_, fun h => absurd h h0, fun _ => ⟨_, hloop, rfl⟩⟩
    rw [spawn_creep_options, if_pos hnz, hloop]
    rfl

/-- C5: `spawn_creep` returns the host's status code unchanged.  For every host, spawn id
pointer, body handle, name buffer and length, and 32-bit directions word (with any fuel of
at least 8 for the unpacking loop): the options value is undefined when the word is 0 and
otherwise the object holding the unpacked directions; the host sees, in this order and
nothing else, `getObjectById` on the id pointer, `handleGet` on the body handle,
`readOneByteStringData` on the name's buffer and length, and one `spawnCreep` on the
resolved spawn with the resolved body, the string read and the options; and the shim
returns the `int` of the status that `spawnCreep` returned, which is that status itself
whenever it fits a 32-bit `int` (0 when the host returns 0). -/
theorem spawn_creep_returns_host_status {σ Val : Type} (H : Host σ Val) (fuel idPtr : Nat)
    (body : js_handle_t) (name_c_str name_length bits : Nat) (s : σ)
    (hbits : bits < 4294967296) (hfuel : 8 ≤ fuel) :
    ∃ (options : JsVar creep_options) (spawn bodyValue nameValue : Val) (status : Int)
      (s1 s2 s3 s4 : σ),
      spawn_creep_options fuel (hostInt bits) = some options ∧
      (bits = 0 → options = JsVar.undefined) ∧
      (bits ≠ 0 → ∃ ds, directions_loop fuel (hostInt bits) [] = some ds ∧
        options = JsVar.defined (creep_options.mk ds)) ∧
      H.getObjectById idPtr s = (spawn, s1) ∧
      H.handleGet body.ref s1 = (bodyValue, s2) ∧
      H.readOneByteStringData name_c_str name_length s2 = (nameValue, s3) ∧
      H.spawnCreep spawn bodyValue nameValue options s3 = (status, s4) ∧
      spawn_creep H fuel idPtr body name_c_str name_length bits s
        = some (Returned.int (toInt32 status), s4) ∧
      spawn_creep (recording H) fuel idPtr body name_c_str name_length bits (s, [])
        = some (Returned.int (toInt32 status), s4,
            [HostCall.getObjectById idPtr, HostCall.handleGet body.ref,
             HostCall.readOneByteStringData name_c_str name_length,
             HostCall.spawnCreep spawn bodyValue nameValue options]) ∧
      (-2147483648 ≤ status → status < 2147483648 → toInt32 status = status) ∧
      (status = 0 → toInt32 status = 0) := by
  obtain ⟨options, hopt, h0, hne⟩ := spawn_creep_options_total hbits hfuel
  rcases h1 : H.getObjectById idPtr s with ⟨spawn, s1⟩
  rcases h2 : H.handleGet body.ref s1 with ⟨bodyValue, s2⟩
  rcases h3 : H.readOneByteStringData name_c_str name_length s2 with ⟨nameValue, s3⟩
  rcases h4 : H.spawnCreep spawn bodyValue nameValue options s3 with ⟨status, s4⟩
  refine ⟨options, spawn, bodyValue, nameValue, status, s1, s2, s3, s4, hopt, h0, hne, rfl,
    h2, h3, h4, ?_, ?_, ?_, ?_⟩
  · unfold spawn_creep
    simp only [hopt, h1, h2, h3, h4, em_asm_int, Option.map_some']
  · unfold spawn_creep
    simp only [hopt, recording, logged, h1, h2, h3, h4, em_asm_int, Option.map_some',
      List.nil_append, List.cons_append]
  · intro hlo hhi
    exact toInt32_of_range hlo hhi
  · intro hz
    rw [hz]
    decide

/-- C5 on the host whose every status code is `-6`, with the directions word `0x531`. -/
theorem spawn_creep_returns_host_status_witness :
    spawn_creep (constHost (-6)) 8 100 (js_handle_t.mk 7) 200 3 0x531 ()
      = some (Returned.int (-6), ()) ∧
    ∃ (options : JsVar creep_options) (spawn bodyValue nameValue : Nat) (status : Int)
      (s1 s2 s3 s4 : Unit),
      spawn_creep_options 8 (hostInt 0x531) = some options ∧
      (0x531 = 0 → options = JsVar.undefined) ∧
      (0x531 ≠ 0 → ∃ ds, directions_loop 8 (hostInt 0x531) [] = some ds ∧
        options = JsVar.defined (creep_options.mk ds)) ∧
      (constHost (-6)).getObjectById 100 () = (spawn, s1) ∧
      (constHost (-6)).handleGet (js_handle_t.mk 7).ref s1 = (bodyValue, s2) ∧
      (constHost (-6)).readOneByteStringData 200 3 s2 = (nameValue, s3) ∧
      (constHost (-6)).spawnCreep spawn bodyValue nameValue options s3 = (status, s4) ∧
      spawn_creep (constHost (-6)) 8 100 (js_handle_t.mk 7) 200 3 0x531 ()
        = some (Returned.int (toInt32 status), s4) ∧
      spawn_creep (recording (constHost (-6))) 8 100 (js_handle_t.mk 7) 200 3 0x531 ((), [])
        = some (Returned.int (toInt32 status), s4,
            [HostCall.getObjectById 100, HostCall.handleGet (js_handle_t.mk 7).ref,
             HostCall.readOneByteStringData 200 3,
             HostCall.spawnCreep spawn bodyValue nameValue options]) ∧
      (-2147483648 ≤ status → status < 2147483648 → toInt32 status = status) ∧
      (status = 0 → toInt32 status = 0) :=
  ⟨by decide,
    spawn_creep_returns_host_status (constHost (-6)) 8 100 (js_handle_t.mk 7) 200 3 0x531 ()
      (by decide) (by decide)⟩

/-- C6 fails as stated: on a host whose `cancel` returns the error code `-1`, the native
caller of `spawning_t::cancel` receives nothing, not `-1`; and it receives the same from
a host whose `cancel` returns `0`. -/
theorem cancel_propagates_status_counterexample :
    ((constHost (-1)).cancel 0 ()).1 = -1 ∧
    (spawning_t_cancel (constHost (-1)) 0 ()).1 = Returned.nothing ∧
    (spawning_t_cancel (constHost (-1)) 0 ()).1 ≠ Returned.int (-1) ∧
    (spawning_t_cancel (constHost (-1)) 0 ()).1
      = (spawning_t_cancel (constHost 0) 0 ()).1 := by
  decide

/-- C6 as amended: for every host and spawn id pointer, `spawning_t::cancel` resolves the
spawn by the id pointer, reads its `spawning` sub-object and calls `cancel()` on it
exactly once, in this order and nothing else; whatever status the host's `cancel` returns
is discarded, the native caller receives nothing, and the host is left in the state after
that `cancel`. -/
theorem spawning_cancel_discards_status {σ Val : Type} (H : Host σ Val) (idPtr : Nat)
    (s : σ) :
    ∃ (spawn spawningValue : Val) (status : Int) (s1 s2 s3 : σ),
      H.getObjectById idPtr s = (spawn, s1) ∧
      H.spawning spawn s1 = (spawningValue, s2) ∧
      H.cancel spawningValue s2 = (status, s3) ∧
      spawning_t_cancel H idPtr s = (Returned.nothing, s3) ∧
      spawning_t_cancel (recording H) idPtr (s, [])
        = (Returned.nothing, s3,
            [HostCall.getObjectById idPtr, HostCall.spawning spawn,
             HostCall.cancel spawningValue]) :=
  ⟨(H.getObjectById idPtr s).1,
    (H.spawning (H.getObjectById idPtr s).1 (H.getObjectById idPtr s).2).1,
    (H.cancel (H.spawning (H.getObjectById idPtr s).1 (H.getObjectById idPtr s).2).1
      (H.spawning (H.getObjectById idPtr s).1 (H.getObjectById idPtr s).2).2).1,
    _, _, _, rfl, rfl, rfl, rfl, rfl⟩

theorem body_loop_spec {σ Val : Type} (H : Host σ Val) (data size : Nat) (s : σ) (n : Nat) :
    ∀ (ii fuel : Nat) (body : List Val), ii + n = size → n + 1 ≤ fuel →
      body_loop H data size s fuel ii body
        = some (body ++ (List.range' ii n).map
            (fun i => H.readCreepBodyPart (H.readInt32 (data + i * 4) s))) := by
  induction n with
  | zero =>
    intro ii fuel body hii hfuel
    obtain ⟨f, rfl⟩ : ∃ f, fuel = f + 1 := ⟨fuel - 1, by omega⟩
    have hnot : ¬ ii < size := by omega
    simp [body_loop, hnot]
  | succ n ih =>
    intro ii fuel body hii hfuel
    obtain ⟨f, rfl⟩ : ∃ f, fuel = f + 1 := ⟨fuel - 1, by omega⟩
    have hlt : ii < size := by omega
    rw [body_loop, if_pos hlt, ih (ii + 1) f _ (by omega) (by omega)]
    simp [List.range'_succ]

/-- C9: body marshalling preserves length and order.  For every host, data pointer and
size `n` of the vector of body parts (with any fuel of at least `n + 1` for the loop), the
constructor builds the array of exactly `n` elements whose `i`-th element is
`readCreepBodyPart` applied to the 32-bit integer read at byte offset `4 * i` from the data
pointer, hands this array to the host's `handleCtor` in its one state-changing call, and
stores the `int` of the handle that call returned, which is that handle itself whenever it
fits a 32-bit `int`. -/
theorem body_t_ctor_marshals_parts {σ Val : Type} (H : Host σ Val) (fuel parts_data
    parts_size : Nat) (s : σ) (hfuel : parts_size + 1 ≤ fuel) :
    ∃ (body : List Val) (handle : Int) (s1 : σ),
      body = (List.range parts_size).map
        (fun i => H.readCreepBodyPart (H.readInt32 (parts_data + 4 * i) s)) ∧
      body.length = parts_size ∧
      (∀ i, i < parts_size →
        body[i]? = some (H.readCreepBodyPart (H.readInt32 (parts_data + 4 * i) s))) ∧
      body_loop H parts_data parts_size s fuel 0 [] = some body ∧
      H.handleCtor body s = (handle, s1) ∧
      body_t_ctor H fuel parts_data parts_size s = some (js_handle_t.mk (toInt32 handle), s1) ∧
      body_t_ctor (recording H) fuel parts_data parts_size (s, [])
        = some (js_handle_t.mk (toInt32 handle), s1, [HostCall.handleCtor body]) ∧
      (-2147483648 ≤ handle → handle < 2147483648 → toInt32 handle = handle) := by
  have hloop : ∀ (σ' : Type) (H' : Host σ' Val) (s' : σ'),
      body_loop H' parts_data parts_size s' fuel 0 []
        = some ((List.range parts_size).map
            (fun i => H'.readCreepBodyPart (H'.readInt32 (parts_data + 4 * i) s'))) := by
    intro σ' H' s'
    rw [body_loop_spec H' parts_data parts_size s' parts_size 0 fuel [] (by omega) hfuel,
      List.range_eq_range']
    simp [Nat.mul_comm]
  rcases h1 : H.handleCtor ((List.range parts_size).map
    (fun i => H.readCreepBodyPart (H.readInt32 (parts_data + 4 * i) s))) s with ⟨handle, s1⟩
  refine ⟨_, handle, s1, rfl, by simp, ?_, hloop σ H s, h1, ?_, ?_, ?_⟩
  · intro i hi
    simp [hi]
  · unfold body_t_ctor
    simp only [hloop σ H s, Option.map_some', h1, em_asm_int]
  · unfold body_t_ctor
    rw [hloop _ (recording H) (s, [])]
    simp only [Option.map_some', recording, logged, h1, em_asm_int, List.nil_append]
  · intro hlo hhi
    exact toInt32_of_range hlo hhi

/-- C9 at a vector of three parts at address 1000, with fuel 4: an array of length 3. -/
theorem body_t_ctor_marshals_parts_witness :
    body_t_ctor (constHost 0) 4 1000 3 () = some (js_handle_t.mk 7, ()) ∧
    body_loop (constHost 0) 1000 3 () 4 0 [] = some [1000, 1004, 1008] ∧
    ∃ (body : List Nat) (handle : Int) (s1 : Unit),
      body = (List.range 3).map
        (fun i => (constHost 0).readCreepBodyPart ((constHost 0).readInt32 (1000 + 4 * i) ())) ∧
      body.length = 3 ∧
      (∀ i, i < 3 →
        body[i]? = some ((constHost 0).readCreepBodyPart
          ((constHost 0).readInt32 (1000 + 4 * i) ()))) ∧
      body_loop (constHost 0) 1000 3 () 4 0 [] = some body ∧
      (constHost 0).handleCtor body () = (handle, s1) ∧
      body_t_ctor (constHost 0) 4 1000 3 () = some (js_handle_t.mk (toInt32 handle), s1) ∧
      body_t_ctor (recording (constHost 0)) 4 1000 3 ((), [])
        = some (js_handle_t.mk (toInt32 handle), s1, [HostCall.handleCtor body]) ∧
      (-2147483648 ≤ handle → handle < 2147483648 → toInt32 handle = handle) :=
  ⟨by decide, by decide, body_t_ctor_marshals_parts (constHost 0) 4 1000 3 () (by decide)⟩

/-- C7: `structure_t::init` issues exactly six registration calls, in the order generic
structure (base), container, controller, extension, road, spawn; each call carries
exactly the listed field names, each once; and each `spawning*` offset of the spawn call
other than `spawning` itself is the offset of the `spawning` sub-record inside the spawn
record plus the offset of the field inside the sub-record. -/
theorem structure_t_init_registrations {σ Val : Type} (H : Host σ Val) (L : Layout) (s : σ) :
    ∃ base container controller extension road spawn : HostCall Val,
      (structure_t_init (recording H) L (s, [])).2
        = [base, container, controller, extension, road, spawn] ∧
      base.entryName = some "initStructureLayout" ∧
      container.entryName = some "initStructureContainerLayout" ∧
      controller.entryName = some "initStructureControllerLayout" ∧
      extension.entryName = some "initStructureExtensionLayout" ∧
      road.entryName = some "initStructureRoadLayout" ∧
      spawn.entryName = some "initStructureSpawnLayout" ∧
      base.fieldNames = ["sizeof", "structureType", "hits", "hitsMax", "owner", "my"] ∧
      base.offsetOf "sizeof" = some L.sizeof_structure_union_t ∧
      container.fieldNames = ["store", "ticksToDecay"] ∧
      controller.fieldNames
        = ["level", "progress", "progressTotal", "ticksToDowngrade", "upgradeBlocked"] ∧
      extension.fieldNames = ["energy", "energyCapacity"] ∧
      road.fieldNames = ["ticksToDecay"] ∧
      spawn.fieldNames
        = ["energy", "energyCapacity", "spawning", "spawningDirections", "spawningNeedTime",
           "spawningRemainingTime", "spawningId"] ∧
      spawn.offsetOf "spawningDirections" = some (L.spawn_t_spawning + L.spawning_t_directions) ∧
      spawn.offsetOf "spawningNeedTime" = some (L.spawn_t_spawning + L.spawning_t_need_time) ∧
      spawn.offsetOf "spawningRemainingTime"
        = some (L.spawn_t_spawning + L.spawning_t_remaining_time) ∧
      spawn.offsetOf "spawningId" = some (L.spawn_t_spawning + L.spawning_t_id) :=
  ⟨_, _, _, _, _, _, rfl, rfl, rfl, rfl, rfl, rfl, rfl, rfl, rfl, rfl, rfl, rfl, rfl, rfl,
    rfl, rfl, rfl, rfl⟩

end screeps
